import Mathlib

/-!
Verification development for the leadscraper dashboard API routes.

The definitions below are a shallow embedding of the TypeScript route
handlers in `dashboard/src/app/api/` (local mode):

* `parseProgress` — `api/scrape/route.ts`, lines 58–107;
* `enrichParseProgress` — the enrich route (`POST /api/enrich`), lines 42–71;
* `reEnrichParseProgress` — `api/re-enrich/route.ts`, lines 41–67.

The JavaScript regular-expression calls `line.match(...)` are embedded as
explicit leftmost matchers over `List Char`.  Every pattern used by the
routes is backtracking-free under maximal munch (each `\d+` or `\s+` is
followed by an atom that cannot match a digit resp. a whitespace
character), except `Enriched:\s+(.+?)\s+\|`, which is embedded with the
regex engine's backtracking priority order made explicit.  JS numbers are
modelled as `Nat`/`Int` counters; the percent computation
`Math.round((current / total) * 100)` is modelled exactly over `ℚ`.
-/

namespace LeadScraper

/-- JS `Math.round` for the nonnegative progress values: round half toward
positive infinity, modelled exactly over the rationals. -/
def jsRound (q : ℚ) : ℤ := ⌊q + 1/2⌋

/-- ASCII whitespace: the characters the regex class `\s` can meet in the
ASCII job logs (space, tab, newline, carriage return, vertical tab, form
feed). -/
def isSpaceCh (c : Char) : Bool :=
  c = ' ' || c = '\t' || c = '\n' || c = '\r' || c = '\x0b' || c = '\x0c'

/-- Maximal run of decimal digits: the greedy `\d+`. -/
def takeDigits : List Char → List Char × List Char
  | [] => ([], [])
  | c :: cs =>
    if c.isDigit then
      let p := takeDigits cs
      (c :: p.1, p.2)
    else ([], c :: cs)

/-- Maximal run of whitespace: the greedy `\s+`. -/
def takeSpaces : List Char → List Char × List Char
  | [] => ([], [])
  | c :: cs =>
    if isSpaceCh c then
      let p := takeSpaces cs
      (c :: p.1, p.2)
    else ([], c :: cs)

/-- Value of a digit string, as computed by `parseInt(_, 10)`. -/
def digitsToNat (ds : List Char) : Nat :=
  ds.foldl (fun n c => 10 * n + (c.toNat - 48)) 0

/-- Match `\d+` (at least one digit, maximal munch) and return its value
with the rest of the input. -/
def matchDigits1 (cs : List Char) : Option (Nat × List Char) :=
  let p := takeDigits cs
  if p.1.isEmpty then none else some (digitsToNat p.1, p.2)

/-- Match `\s+` (at least one whitespace character, maximal munch). -/
def matchSpaces1 (cs : List Char) : Option (List Char) :=
  let p := takeSpaces cs
  if p.1.isEmpty then none else some p.2

/-- Match a literal character sequence. -/
def dropLit : List Char → List Char → Option (List Char)
  | [], cs => some cs
  | _ :: _, [] => none
  | l :: ls, c :: cs => if c = l then dropLit ls cs else none

/-- Leftmost search: try the anchored matcher at every start position, the
way `String.prototype.match` finds the leftmost match. -/
def searchFirst (f : List Char → Option α) : List Char → Option α
  | [] => f []
  | c :: cs =>
    match f (c :: cs) with
    | some a => some a
    | none => searchFirst f cs

/-- Anchored matcher for `(\d+)\s+found,\s+(\d+)\s+new`. -/
def foundAt (cs : List Char) : Option (Nat × Nat) := do
  let (n, r) ← matchDigits1 cs
  let r ← matchSpaces1 r
  let r ← dropLit (("found,").toList) r
  let r ← matchSpaces1 r
  let (m, r) ← matchDigits1 r
  let r ← matchSpaces1 r
  let _ ← dropLit (("new").toList) r
  pure (n, m)

/-- Result of `line.match(/(\d+)\s+found,\s+(\d+)\s+new/)`: the two
captured counts. -/
def foundMatch (line : String) : Option (Nat × Nat) :=
  searchFirst foundAt line.toList

/-- Close attempt for the lazy capture of `Enriched:\s+(.+?)\s+\|`: with
the (reversed, nonempty) capture so far, try to match the trailing
`\s+\|` at the current position.  The trailing `\s+` needs no backtrack:
`|` is not whitespace, so maximal munch is exact. -/
def tryClose (accRev : List Char) (rest : List Char) : Option (List Char) :=
  if accRev.isEmpty then none
  else do
    let r ← matchSpaces1 rest
    let _ ← dropLit (['|']) r
    pure accRev.reverse

/-- Lazy capture `(.+?)` followed by `\s+\|`: extend the capture one
character at a time (shortest first, the lazy priority), trying to close
before each extension; `.` does not match a newline. -/
def findCapture (accRev : List Char) : List Char → Option (List Char)
  | [] => none
  | c :: rest =>
    match tryClose accRev (c :: rest) with
    | some cap => some cap
    | none => if c = '\n' then none else findCapture (c :: accRev) rest

/-- Backtracking over the initial greedy `\s+` of
`Enriched:\s+(.+?)\s+\|`: the first argument is the reversed remaining
whitespace run; longest `\s+` is tried first, and on failure the run's
last character is moved into the front of the capture. -/
def enrichedSearch : List Char → List Char → List Char → Option (List Char)
  | [], _, _ => none
  | w :: keptRev, movedRev, r =>
    match findCapture movedRev r with
    | some cap => some cap
    | none => enrichedSearch keptRev (w :: movedRev) r

/-- Anchored matcher for `Enriched:\s+(.+?)\s+\|`, returning the capture. -/
def enrichedAt (cs : List Char) : Option (List Char) := do
  let r ← dropLit (("Enriched:").toList) cs
  let p := takeSpaces r
  if p.1.isEmpty then none
  else enrichedSearch p.1.reverse [] p.2

/-- Result of `line.match(/Enriched:\s+(.+?)\s+\|/)`: the captured
business name. -/
def enrichMatch (line : String) : Option String :=
  (searchFirst enrichedAt line.toList).map (fun cs => String.mk cs)

/-- Anchored matcher for `Enrichment progress:\s+(\d+)\/(\d+)`. -/
def progressAt (cs : List Char) : Option (Nat × Nat) := do
  let r ← dropLit (("Enrichment progress:").toList) cs
  let r ← matchSpaces1 r
  let (c, r) ← matchDigits1 r
  let r ← dropLit (['/']) r
  let (t, _) ← matchDigits1 r
  pure (c, t)

/-- Result of `line.match(/Enrichment progress:\s+(\d+)\/(\d+)/)`. -/
def progressMatch (line : String) : Option (Nat × Nat) :=
  searchFirst progressAt line.toList

/-- Anchored matcher for `Auto-enriching\s+(\d+)`. -/
def autoEnrichAt (cs : List Char) : Option Nat := do
  let r ← dropLit (("Auto-enriching").toList) cs
  let r ← matchSpaces1 r
  let (t, _) ← matchDigits1 r
  pure t

/-- Result of `line.match(/Auto-enriching\s+(\d+)/)`. -/
def autoEnrichMatch (line : String) : Option Nat :=
  searchFirst autoEnrichAt line.toList

/-- Anchored matcher for `Total:\s+(\d+)\s+\|\s+Success:\s+(\d+)`. -/
def totalAt (cs : List Char) : Option (Nat × Nat) := do
  let r ← dropLit (("Total:").toList) cs
  let r ← matchSpaces1 r
  let (t, r) ← matchDigits1 r
  let r ← matchSpaces1 r
  let r ← dropLit (['|']) r
  let r ← matchSpaces1 r
  let r ← dropLit (("Success:").toList) r
  let r ← matchSpaces1 r
  let (s, _) ← matchDigits1 r
  pure (t, s)

/-- Result of `line.match(/Total:\s+(\d+)\s+\|\s+Success:\s+(\d+)/)`. -/
def totalMatch (line : String) : Option (Nat × Nat) :=
  searchFirst totalAt line.toList

/-- Anchored matcher for `Found:\s+(\d+)\s+\|\s+New:\s+(\d+)`. -/
def scrapeAt (cs : List Char) : Option (Nat × Nat) := do
  let r ← dropLit (("Found:").toList) cs
  let r ← matchSpaces1 r
  let (f, r) ← matchDigits1 r
  let r ← matchSpaces1 r
  let r ← dropLit (['|']) r
  let r ← matchSpaces1 r
  let r ← dropLit (("New:").toList) r
  let r ← matchSpaces1 r
  let (n, _) ← matchDigits1 r
  pure (f, n)

/-- Result of `line.match(/Found:\s+(\d+)\s+\|\s+New:\s+(\d+)/)`. -/
def scrapeMatch (line : String) : Option (Nat × Nat) :=
  searchFirst scrapeAt line.toList

/-- Anchored matcher for `Found\s+(\d+)\s+stale` (re-enrich route). -/
def staleAt (cs : List Char) : Option Nat := do
  let r ← dropLit (("Found").toList) cs
  let r ← matchSpaces1 r
  let (n, r) ← matchDigits1 r
  let r ← matchSpaces1 r
  let _ ← dropLit (("stale").toList) r
  pure n

/-- Result of `line.match(/Found\s+(\d+)\s+stale/)`. -/
def staleMatch (line : String) : Option Nat :=
  searchFirst staleAt line.toList

/-- Anchored matcher for `Reset\s+(\d+)\s+leads` (re-enrich route). -/
def resetAt (cs : List Char) : Option Nat := do
  let r ← dropLit (("Reset").toList) cs
  let r ← matchSpaces1 r
  let (n, r) ← matchDigits1 r
  let r ← matchSpaces1 r
  let _ ← dropLit (("leads").toList) r
  pure n

/-- Result of `line.match(/Reset\s+(\d+)\s+leads/)`. -/
def resetMatch (line : String) : Option Nat :=
  searchFirst resetAt line.toList

/-- Result of `line.match(/Enriched:/)` in the re-enrich route: a bare
substring test. -/
def enrichedPlainMatch (line : String) : Bool :=
  (searchFirst (dropLit (("Enriched:").toList)) line.toList).isSome

/-! Progress parsing of the scrape route (`api/scrape/route.ts`,
lines 58–107). -/

/-- Mutable loop state of the scrape route's `parseProgress`. -/
structure ScrapeState where
  current : Nat
  total : Nat
  leadsFound : Nat
  leadsNew : Nat
  lastBusiness : String
deriving DecidableEq

/-- Progress record returned by the scrape route's `parseProgress`. -/
structure Progress where
  current : Nat
  total : Nat
  percent : ℤ
  leadsFound : Nat
  leadsNew : Nat
  lastBusiness : String
deriving DecidableEq

/-- One iteration of the scrape route's `parseProgress` loop, applying the
six `line.match` updates in source order. -/
def scrapeStep (st : ScrapeState) (line : String) : ScrapeState :=
  let st :=
    match foundMatch line with
    | some p => { st with leadsFound := st.leadsFound + p.1, leadsNew := st.leadsNew + p.2 }
    | none => st
  let st :=
    match enrichMatch line with
    | some b => { st with current := st.current + 1, lastBusiness := b }
    | none => st
  let st :=
    match progressMatch line with
    | some p => { st with current := p.1, total := p.2 }
    | none => st
  let st :=
    match autoEnrichMatch line with
    | some t => { st with total := t, current := 0 }
    | none => st
  let st :=
    match totalMatch line with
    | some p => { st with total := p.1, current := p.1 }
    | none => st
  match scrapeMatch line with
  | some p => { st with leadsFound := p.1, leadsNew := p.2 }
  | none => st

/-- Final steps of the scrape route's `parseProgress`: the
`total === 0 && current > 0` fallback, then the percent computation. -/
def finishProgress (st : ScrapeState) : Progress :=
  let total := if st.total = 0 ∧ 0 < st.current then st.current else st.total
  { current := st.current
    total := total
    percent := if 0 < total then jsRound ((st.current : ℚ) / (total : ℚ) * 100) else 0
    leadsFound := st.leadsFound
    leadsNew := st.leadsNew
    lastBusiness := st.lastBusiness }

/-- The scrape route's `parseProgress` (`api/scrape/route.ts` 58–107). -/
def parseProgress (output : List String) : Progress :=
  finishProgress (output.foldl scrapeStep ⟨0, 0, 0, 0, ""⟩)

/-! Progress parsing of the enrich route (`POST /api/enrich`, lines
42–71). -/

/-- Mutable loop state of the enrich route's `parseProgress`. -/
structure EnrichState where
  current : Nat
  total : Nat
  lastBusiness : String
deriving DecidableEq

/-- One iteration of the enrich route's `parseProgress` loop (three
`line.match` updates, in source order). -/
def enrichStep (st : EnrichState) (line : String) : EnrichState :=
  let st :=
    match enrichMatch line with
    | some b => { st with current := st.current + 1, lastBusiness := b }
    | none => st
  let st :=
    match progressMatch line with
    | some p => { st with current := p.1, total := p.2 }
    | none => st
  match totalMatch line with
  | some p => { st with total := p.1, current := p.1 }
  | none => st

/-- Progress record returned by the enrich route's `parseProgress`. -/
structure EnrichProgressOut where
  current : Nat
  total : Nat
  percent : ℤ
  lastBusiness : String
deriving DecidableEq

/-- Fallback and percent computation of the enrich route's
`parseProgress`. -/
def enrichFinish (st : EnrichState) : EnrichProgressOut :=
  let total := if st.total = 0 ∧ 0 < st.current then st.current else st.total
  { current := st.current
    total := total
    percent := if 0 < total then jsRound ((st.current : ℚ) / (total : ℚ) * 100) else 0
    lastBusiness := st.lastBusiness }

/-- The enrich route's `parseProgress` (enrich route, lines 42–71). -/
def enrichParseProgress (output : List String) : EnrichProgressOut :=
  enrichFinish (output.foldl enrichStep ⟨0, 0, ""⟩)

/-! Progress parsing of the re-enrich route (`api/re-enrich/route.ts`,
lines 41–67). -/

/-- Mutable loop state of the re-enrich route's `parseProgress`. -/
structure ReEnrichState where
  staleFound : Nat
  current : Nat
  total : Nat
deriving DecidableEq

/-- One iteration of the re-enrich route's `parseProgress` loop (four
`line.match` updates, in source order; note `current` comes from the
second capture of the `Total:` line here). -/
def reEnrichStep (st : ReEnrichState) (line : String) : ReEnrichState :=
  let st :=
    match staleMatch line with
    | some n => { st with staleFound := n }
    | none => st
  let st :=
    match resetMatch line with
    | some n => { st with total := n }
    | none => st
  let st := if enrichedPlainMatch line then { st with current := st.current + 1 } else st
  match totalMatch line with
  | some p => { st with total := p.1, current := p.2 }
  | none => st

/-- Progress record returned by the re-enrich route's `parseProgress`. -/
structure ReEnrichProgressOut where
  staleFound : Nat
  current : Nat
  total : Nat
  percent : ℤ
deriving DecidableEq

/-- Fallback (`total === 0 && staleFound > 0`) and percent computation of
the re-enrich route's `parseProgress`. -/
def reEnrichFinish (st : ReEnrichState) : ReEnrichProgressOut :=
  let total := if st.total = 0 ∧ 0 < st.staleFound then st.staleFound else st.total
  { staleFound := st.staleFound
    current := st.current
    total := total
    percent := if 0 < total then jsRound ((st.current : ℚ) / (total : ℚ) * 100) else 0 }

/-- The re-enrich route's `parseProgress` (`api/re-enrich/route.ts`
41–67). -/
def reEnrichParseProgress (output : List String) : ReEnrichProgressOut :=
  reEnrichFinish (output.foldl reEnrichStep ⟨0, 0, 0⟩)

/-! Job lifecycle.  A spawned child process delivers events to the
handlers installed by `localPost` (scrape route 145–161), the enrich
route (111–125) and the re-enrich route (108–122); all three install the
same status logic: `close` sets `completed` on exit code 0 and `failed`
otherwise, `error` sets `failed` and appends a `Process error:` line. -/

/-- Job status, `"running" | "completed" | "failed"`. -/
inductive JStatus
  | running
  | completed
  | failed
deriving DecidableEq

/-- Events delivered by a spawned child process: a stdout/stderr chunk, a
`close` with the exit code (`none` models a `null` code after a spawn
failure), or an `error`. -/
inductive JobEvent
  | dataEv (chunk : String)
  | closeEv (code : Option Int)
  | errorEv (msg : String)
deriving DecidableEq

/-- Splitting of a stdout/stderr chunk:
`data.toString().split("\n").filter(Boolean)`. -/
def splitChunk (s : String) : List String :=
  (s.splitOn ("\n")).filter (fun l => l ≠ "")

/-- Status and append-only output log of one tracked job. -/
structure JobRec where
  status : JStatus
  output : List String
deriving DecidableEq

/-- Effect of one child-process event on the job record, exactly as the
`data`, `close` and `error` handlers write it. -/
def applyEvent (j : JobRec) : JobEvent → JobRec
  | .dataEv s => { j with output := j.output ++ splitChunk s }
  | .closeEv c => { j with status := if c = some 0 then .completed else .failed }
  | .errorEv m => { status := .failed, output := j.output ++ [("Process error: " ++ m)] }

/-- Job record as created when a job starts: status `running`, empty
output. -/
def initJob : JobRec := ⟨.running, []⟩

/-- Job record after a sequence of child-process events. -/
def runJob (evs : List JobEvent) : JobRec := evs.foldl applyEvent initJob

/-- Test for a `close` event. -/
def isCloseEv : JobEvent → Bool
  | .closeEv _ => true
  | _ => false

/-- Test for an `error` event. -/
def isErrorEv : JobEvent → Bool
  | .errorEv _ => true
  | _ => false

/-- Test for a `close` event with exit code 0. -/
def isSuccessClose : JobEvent → Bool
  | .closeEv c => c = some 0
  | _ => false

/-- Node guarantees the handlers rely on: a child emits `close` at most
once, and when `error` has fired (the spawn failed) no `close` event of
that child carries exit code 0. -/
def validTrace (evs : List JobEvent) : Prop :=
  evs.countP isCloseEv ≤ 1 ∧
    (evs.any isErrorEv = true → evs.all (fun e => !isSuccessClose e) = true)

/-! Scrape job store (`api/scrape/route.ts`, `runningJobs`, `cleanOldJobs`
49–56, `localPost` 109–164, `localGet` 166–189, `GET` 215–228).  The
in-memory `Map` is embedded as an insertion-ordered association list;
timestamps are milliseconds as `ℤ`. -/

/-- Parameters of a scrape job. -/
structure ScrapeParams where
  source : String
  category : String
  location : String
  pages : Nat
deriving DecidableEq

/-- One entry of the `runningJobs` map. -/
structure ScrapeJob where
  status : JStatus
  output : List String
  startedAt : ℤ
  params : ScrapeParams
deriving DecidableEq

/-- The `runningJobs` map: job id to job record, in insertion order. -/
abbrev JobMap := List (String × ScrapeJob)

/-- Deletion condition of `cleanOldJobs`: terminal status and started
before the 10-minute cutoff. -/
def isStale (now : ℤ) (j : ScrapeJob) : Bool :=
  j.status != JStatus.running && j.startedAt < now - 10 * 60 * 1000

/-- The scrape route's `cleanOldJobs` (lines 49–56): delete every entry
whose status left `running` and whose `startedAt` is older than ten
minutes. -/
def cleanOldJobs (now : ℤ) (m : JobMap) : JobMap :=
  m.filter (fun p => !isStale now p.2)

/-- Immediate response of `localPost`: `{ jobId, status: "running" }`. -/
structure StartResponse where
  jobId : String
  statusStr : String
deriving DecidableEq

/-- The scrape route's `localPost` (lines 109–164) as a state transformer
on the job map: prune old jobs, register the new `running` job, and
respond at once; the response is a function of the request alone and
does not depend on any event of the spawned child. -/
def localPost (m : JobMap) (newId : String) (body : ScrapeParams) (now : ℤ) :
    StartResponse × JobMap :=
  (⟨newId, ("running")⟩, cleanOldJobs now m ++ [(newId, ⟨.running, [], now, body⟩)])

/-- Job detail returned by `localGet` for a known job id. -/
structure JobDetail where
  jobId : String
  status : JStatus
  output : List String
  params : ScrapeParams
  startedAt : ℤ
  progress : Progress
deriving DecidableEq

/-- Summary entry of the job listing returned by `localGet` without an
id. -/
structure JobSummary where
  jobId : String
  status : JStatus
  params : ScrapeParams
  startedAt : ℤ
  outputLines : Nat
deriving DecidableEq

/-- The job-detail branch of `localGet` (lines 167–178): `null` for an
unknown id. -/
def localGetOpt (id : String) (m : JobMap) : Option JobDetail :=
  (m.lookup id).map (fun job =>
    ⟨id, job.status, job.output, job.params, job.startedAt, parseProgress job.output⟩)

/-- Response of the scrape route's `GET` handler in local mode. -/
inductive GetResponse
  | detail (d : JobDetail)
  | listing (entries : List JobSummary)
  | notFound (error : String)
deriving DecidableEq

/-- HTTP status code of a `GET` response (lines 223–227). -/
def getHttpCode : GetResponse → Nat
  | .notFound _ => 404
  | _ => 200

/-- The scrape route's `GET` handler in local mode (lines 215–228 with
`localGet` 166–189): a pure reader, returning the job map unchanged. -/
def scrapeGet (jobId : Option String) (m : JobMap) : GetResponse × JobMap :=
  match jobId with
  | some id =>
    (match localGetOpt id m with
     | some d => .detail d
     | none => .notFound ("Job not found"), m)
  | none =>
    (.listing (m.map (fun p => ⟨p.1, p.2.status, p.2.params, p.2.startedAt, p.2.output.length⟩)), m)

/-! Enrich and re-enrich start handlers (enrich route `POST` 93–128,
`api/re-enrich/route.ts` `POST` 90–125): single module-level job slot,
409 when a run is already in progress. -/

/-- One entry of the enrich route's module-level `enrichJob` slot. -/
structure EnrichJob where
  status : JStatus
  output : List String
  startedAt : ℤ
  limit : Nat
deriving DecidableEq

/-- One entry of the re-enrich route's module-level `reEnrichJob` slot. -/
structure ReEnrichJob where
  status : JStatus
  output : List String
  startedAt : ℤ
deriving DecidableEq

/-- Response body of the enrich route's local `POST`. -/
inductive EnrichPostResponse
  | conflict (error : String) (statusStr : String)
  | started (statusStr : String) (limit : Nat)
deriving DecidableEq

/-- HTTP status code of an enrich `POST` response. -/
def enrichHttpCode : EnrichPostResponse → Nat
  | .conflict _ _ => 409
  | .started _ _ => 200

/-- The enrich route's local `POST` (lines 93–128): reject with 409 when
the stored job is `running`, otherwise replace the slot with a fresh
`running` job and spawn the worker (the returned flag records whether a
process was spawned). -/
def enrichPost (prev : Option EnrichJob) (limit : Nat) (now : ℤ) :
    EnrichPostResponse × Option EnrichJob × Bool :=
  if prev.map (fun j => j.status) = some JStatus.running then
    (.conflict ("Enrichment already running") ("running"), prev, false)
  else
    (.started ("running") limit, some ⟨.running, [], now, limit⟩, true)

/-- Response body of the re-enrich route's local `POST`. -/
inductive ReEnrichPostResponse
  | conflict (error : String) (statusStr : String)
  | started (statusStr : String) (days limit : Nat)
deriving DecidableEq

/-- HTTP status code of a re-enrich `POST` response. -/
def reEnrichHttpCode : ReEnrichPostResponse → Nat
  | .conflict _ _ => 409
  | .started _ _ _ => 200

/-- The re-enrich route's local `POST` (lines 90–125). -/
def reEnrichPost (prev : Option ReEnrichJob) (days limit : Nat) (now : ℤ) :
    ReEnrichPostResponse × Option ReEnrichJob × Bool :=
  if prev.map (fun j => j.status) = some JStatus.running then
    (.conflict ("Re-enrichment already running") ("running"), prev, false)
  else
    (.started ("running") days limit, some ⟨.running, [], now⟩, true)

/-! Targeted enrichment (`api/enrich/leads/route.ts` `POST`) and lead
deletion (`DELETE /api/leads`).  Both only discriminate a submitted id by
`typeof id === "number" && id > 0`, so array elements are embedded as a
number (`ℚ`, the exact value of the JS float) or any non-number value. -/

/-- An element of the submitted id array: a JS number or anything else. -/
inductive JsElem
  | num (q : ℚ)
  | other
deriving DecidableEq

/-- The filter predicate `typeof id === "number" && id > 0`. -/
def isValidId : JsElem → Bool
  | .num q => 0 < q
  | .other => false

/-- The JSON value found at `body.ids` / `body.leadIds`: an array with
its elements, or any non-array value together with its JS truthiness
(the code treats every non-array alike, via `!ids || !Array.isArray(ids)`). -/
inductive IdsValue
  | nonArray (truthy : Bool)
  | arr (elems : List JsElem)
deriving DecidableEq

/-- Outcome of `DELETE /api/leads`: a 400 error, or a `deleteMany` over
exactly the listed ids, which are also echoed in the response body. -/
inductive DeleteResponse
  | badRequest (error : String)
  | deleted (ids : List JsElem)
deriving DecidableEq

/-- The `DELETE /api/leads` handler (lines 344–380): validation and the
id set handed to `prisma.lead.deleteMany`. -/
def deleteLeads (ids : IdsValue) : DeleteResponse :=
  match ids with
  | .nonArray _ => .badRequest ("ids array is required")
  | .arr l =>
    if l.isEmpty then .badRequest ("ids array is required")
    else
      let validIds := l.filter isValidId
      if validIds.isEmpty then .badRequest ("No valid IDs provided")
      else .deleted validIds

/-- Validation outcome of `POST /api/enrich/leads` (lines 18–31): a 400
error, or the valid id subset the handler proceeds with. -/
inductive EnrichLeadsValidation
  | badRequest (error : String)
  | proceed (validIds : List JsElem)
deriving DecidableEq

/-- The id validation of `POST /api/enrich/leads` (lines 18–31). -/
def enrichLeadsValidate (leadIds : IdsValue) : EnrichLeadsValidation :=
  match leadIds with
  | .nonArray _ => .badRequest ("leadIds array is required")
  | .arr l =>
    if l.isEmpty then .badRequest ("leadIds array is required")
    else
      let validIds := l.filter isValidId
      if validIds.isEmpty then .badRequest ("No valid lead IDs provided")
      else .proceed validIds

/-- Terminal outcome of the child process spawned by the enrich-leads
handler. -/
inductive ProcOutcome
  | closed (code : Option Int) (output : List String)
  | errored (msg : String)
deriving DecidableEq

/-- Response body of the enrich-leads local mode. -/
structure EnrichLeadsResponse where
  statusStr : String
  enrichedIds : List JsElem
  output : List String
deriving DecidableEq

/-- Local mode of `POST /api/enrich/leads` (lines 63–101): the handler
awaits the spawned process and its response is a function of the
process's terminal outcome — `completed` on exit code 0, `failed`
otherwise — with the collected output. -/
def enrichLeadsRun (validIds : List JsElem) (outcome : ProcOutcome) : EnrichLeadsResponse :=
  match outcome with
  | .closed code out => ⟨if code = some 0 then ("completed") else ("failed"), validIds, out⟩
  | .errored m => ⟨("failed"), validIds, [("Process error: " ++ m)]⟩

/-! CSV export (`api/scrape/route.ts` export section, `escapeCsv`
268–275).  A cell value is embedded as its character list; `none` stands
for `null`/`undefined`. -/

/-- Quoting condition of `escapeCsv`:
`str.includes(",") || str.includes(QUOTE) || str.includes(NEWLINE)`. -/
def needsQuoting (cs : List Char) : Bool :=
  cs.contains ',' || cs.contains '"' || cs.contains '\n'

/-- Global replacement `str.replace(/"/g, DOUBLED)`: double every double
quote. -/
def doubleQuotes : List Char → List Char
  | [] => []
  | c :: cs => if c = '"' then '"' :: '"' :: doubleQuotes cs else c :: doubleQuotes cs

/-- The export route's `escapeCsv` (lines 268–275). -/
def escapeCsv : Option (List Char) → List Char
  | none => []
  | some cs => if needsQuoting cs then '"' :: (doubleQuotes cs ++ ['"']) else cs

/-- Collapse doubled double quotes, the inverse substitution of
`doubleQuotes`. -/
def undouble : List Char → List Char
  | [] => []
  | [c] => [c]
  | c :: d :: cs =>
    if c = '"' ∧ d = '"' then '"' :: undouble cs else c :: undouble (d :: cs)

/-- Modelled from the spec wording of the claim ("standard CSV
unescaping"): strip one surrounding pair of double quotes and collapse
doubled inner quotes; a bare cell is returned unchanged.  Used only to
compare with `escapeCsv`. -/
def csvUnescape (cs : List Char) : List Char :=
  if 2 ≤ cs.length ∧ cs.head? = some '"' ∧ cs.getLast? = some '"' then
    undouble (cs.drop 1).dropLast
  else cs

/-! Helper lemmas. -/

/-- The percent field of the scrape route's progress record is computed
from the returned `current` and `total` fields. -/
lemma parseProgress_percent_eq (output : List String) :
    (parseProgress output).percent =
      if 0 < (parseProgress output).total
      then jsRound (((parseProgress output).current : ℚ) /
        ((parseProgress output).total : ℚ) * 100)
      else 0 := rfl

/-- Percent formula of the enrich route's progress record. -/
lemma enrichParseProgress_percent_eq (output : List String) :
    (enrichParseProgress output).percent =
      if 0 < (enrichParseProgress output).total
      then jsRound (((enrichParseProgress output).current : ℚ) /
        ((enrichParseProgress output).total : ℚ) * 100)
      else 0 := rfl

/-- Percent formula of the re-enrich route's progress record. -/
lemma reEnrichParseProgress_percent_eq (output : List String) :
    (reEnrichParseProgress output).percent =
      if 0 < (reEnrichParseProgress output).total
      then jsRound (((reEnrichParseProgress output).current : ℚ) /
        ((reEnrichParseProgress output).total : ℚ) * 100)
      else 0 := rfl

/-- Rounding a nonnegative value stays nonnegative. -/
lemma jsRound_nonneg (q : ℚ) (h : 0 ≤ q) : 0 ≤ jsRound q := by
  unfold jsRound
  exact Int.floor_nonneg.mpr (by linarith)

/-- Rounding a value bounded by 100 stays bounded by 100. -/
lemma jsRound_le_100 (q : ℚ) (h : q ≤ 100) : jsRound q ≤ 100 := by
  unfold jsRound
  have h1 : ⌊q + 1/2⌋ ≤ ⌊(100 : ℚ) + 1/2⌋ := Int.floor_le_floor (by linarith)
  have h2 : ⌊(100 : ℚ) + 1/2⌋ = 100 := by norm_num
  omega

/-! Claim theorems. -/

/-- C1: for every job output log, each route's `parseProgress` reports
`percent = round(100 * current / total)` when the returned `total` is
positive, and `percent = 0` when the returned `total` is zero, where
`current` and `total` are the counters the function extracts from that
log. -/
theorem C1_percent_formula (output : List String) :
    (0 < (parseProgress output).total →
      (parseProgress output).percent =
        jsRound (((parseProgress output).current : ℚ) /
          ((parseProgress output).total : ℚ) * 100)) ∧
    ((parseProgress output).total = 0 → (parseProgress output).percent = 0) ∧
    (0 < (enrichParseProgress output).total →
      (enrichParseProgress output).percent =
        jsRound (((enrichParseProgress output).current : ℚ) /
          ((enrichParseProgress output).total : ℚ) * 100)) ∧
    ((enrichParseProgress output).total = 0 → (enrichParseProgress output).percent = 0) ∧
    (0 < (reEnrichParseProgress output).total →
      (reEnrichParseProgress output).percent =
        jsRound (((reEnrichParseProgress output).current : ℚ) /
          ((reEnrichParseProgress output).total : ℚ) * 100)) ∧
    ((reEnrichParseProgress output).total = 0 → (reEnrichParseProgress output).percent = 0) := by
  refine ⟨?_, ?_, ?_, ?_, ?_, ?_⟩
  · intro h
    rw [parseProgress_percent_eq, if_pos h]
  · intro h
    rw [parseProgress_percent_eq, if_neg (by omega)]
  · intro h
    rw [enrichParseProgress_percent_eq, if_pos h]
  · intro h
    rw [enrichParseProgress_percent_eq, if_neg (by omega)]
  · intro h
    rw [reEnrichParseProgress_percent_eq, if_pos h]
  · intro h
    rw [reEnrichParseProgress_percent_eq, if_neg (by omega)]

/-- Witness for C1 at concrete logs: a log with a positive total and the
empty log with total zero, for each route. -/
theorem C1_percent_formula_witness :
    (parseProgress [("Total: 5 | Success: 4")]).percent =
      jsRound (((parseProgress [("Total: 5 | Success: 4")]).current : ℚ) /
        ((parseProgress [("Total: 5 | Success: 4")]).total : ℚ) * 100) ∧
    (parseProgress []).percent = 0 ∧
    (enrichParseProgress [("Total: 5 | Success: 4")]).percent =
      jsRound (((enrichParseProgress [("Total: 5 | Success: 4")]).current : ℚ) /
        ((enrichParseProgress [("Total: 5 | Success: 4")]).total : ℚ) * 100) ∧
    (enrichParseProgress []).percent = 0 ∧
    (reEnrichParseProgress [("Total: 5 | Success: 4")]).percent =
      jsRound (((reEnrichParseProgress [("Total: 5 | Success: 4")]).current : ℚ) /
        ((reEnrichParseProgress [("Total: 5 | Success: 4")]).total : ℚ) * 100) ∧
    (reEnrichParseProgress []).percent = 0 :=
  ⟨(C1_percent_formula _).1 (by decide),
   (C1_percent_formula _).2.1 (by decide),
   (C1_percent_formula _).2.2.1 (by decide),
   (C1_percent_formula _).2.2.2.1 (by decide),
   (C1_percent_formula _).2.2.2.2.1 (by decide),
   (C1_percent_formula _).2.2.2.2.2 (by decide)⟩

/-- C2 counterexample: the reported percent exceeds 100 on the log line
`Enrichment progress: 7/5` (140), decreases from 100 to 0 when the line
`Auto-enriching 5` is appended after an `Enriched:` line, and is exactly
100 for a polled job whose status is still `running` (log
`Total: 5 | Success: 5`), refuting all three parts of the claim. -/
theorem C2_counterexample :
    100 < (parseProgress [("Enrichment progress: 7/5")]).percent ∧
    (parseProgress [("Enriched: Acme Co | 1 field")]).percent = 100 ∧
    (parseProgress ([("Enriched: Acme Co | 1 field")] ++ [("Auto-enriching 5")])).percent = 0 ∧
    (scrapeGet (some ("j1"))
        [(("j1"), ⟨JStatus.running, [("Total: 5 | Success: 5")], 0, ⟨("g"), ("c"), ("l"), 1⟩⟩)]).1 =
      .detail ⟨("j1"), JStatus.running, [("Total: 5 | Success: 5")],
        ⟨("g"), ("c"), ("l"), 1⟩, 0, ⟨5, 5, 100, 0, 0, ("")⟩⟩ := by
  have h1 : List.foldl scrapeStep ⟨0, 0, 0, 0, ("")⟩ [("Enrichment progress: 7/5")] =
      ⟨7, 5, 0, 0, ("")⟩ := by decide
  have h2 : List.foldl scrapeStep ⟨0, 0, 0, 0, ("")⟩ [("Enriched: Acme Co | 1 field")] =
      ⟨1, 0, 0, 0, ("Acme Co")⟩ := by decide
  have h3 : List.foldl scrapeStep ⟨0, 0, 0, 0, ("")⟩
      ([("Enriched: Acme Co | 1 field")] ++ [("Auto-enriching 5")]) =
      ⟨0, 5, 0, 0, ("Acme Co")⟩ := by decide
  have h4 : List.foldl scrapeStep ⟨0, 0, 0, 0, ("")⟩ [("Total: 5 | Success: 5")] =
      ⟨5, 5, 0, 0, ("")⟩ := by decide
  have h5 : parseProgress [("Total: 5 | Success: 5")] = ⟨5, 5, 100, 0, 0, ("")⟩ := by
    unfold parseProgress
    rw [h4]
    unfold finishProgress
    norm_num [jsRound]
  refine ⟨?_, ?_, ?_, ?_⟩
  · unfold parseProgress
    rw [h1]
    unfold finishProgress
    norm_num [jsRound]
  · unfold parseProgress
    rw [h2]
    unfold finishProgress
    norm_num [jsRound]
  · unfold parseProgress
    rw [h3]
    unfold finishProgress
    norm_num [jsRound]
  · have h6 : List.lookup ("j1")
        [(("j1"), (⟨JStatus.running, [("Total: 5 | Success: 5")], 0,
          ⟨("g"), ("c"), ("l"), 1⟩⟩ : ScrapeJob))] =
        some ⟨JStatus.running, [("Total: 5 | Success: 5")], 0, ⟨("g"), ("c"), ("l"), 1⟩⟩ := by
      decide
    simp [scrapeGet, localGetOpt, h6, h5]

/-- C2 amended: the percent reported by the scrape route's
`parseProgress` is always nonnegative and never exceeds 100 as long as
the counters it extracts satisfy `current ≤ total`; however it is not
clamped, not monotonic under appended output, and not tied to the job's
status: a log line reporting `current > total` pushes it above 100, a
counter-resetting line lowers it, and it can be exactly 100 while the
job is still `running`. -/
theorem C2_amended (output : List String) :
    0 ≤ (parseProgress output).percent ∧
    ((parseProgress output).current ≤ (parseProgress output).total →
      (parseProgress output).percent ≤ 100) := by
  constructor
  · rw [parseProgress_percent_eq]
    split
    · exact jsRound_nonneg _ (by positivity)
    · exact le_refl 0
  · intro hle
    rw [parseProgress_percent_eq]
    split
    · next h =>
      apply jsRound_le_100
      have ht : (0 : ℚ) < ((parseProgress output).total : ℚ) := by exact_mod_cast h
      have hc : ((parseProgress output).current : ℚ) ≤ ((parseProgress output).total : ℚ) := by
        exact_mod_cast hle
      have hd : ((parseProgress output).current : ℚ) / ((parseProgress output).total : ℚ) ≤ 1 :=
        (div_le_one ht).mpr hc
      nlinarith
    · norm_num

/-- Witness for C2 amended at a concrete log whose counters satisfy
`current ≤ total`. -/
theorem C2_amended_witness :
    0 ≤ (parseProgress [("Enrichment progress: 3/5")]).percent ∧
    (parseProgress [("Enrichment progress: 3/5")]).percent ≤ 100 :=
  ⟨(C2_amended _).1, (C2_amended [("Enrichment progress: 3/5")]).2 (by decide)⟩

/-- Counter fields of the scrape progress record come straight from the
fold over the log. -/
lemma parseProgress_leadsFound_eq (output : List String) :
    (parseProgress output).leadsFound =
      (output.foldl scrapeStep ⟨0, 0, 0, 0, ("")⟩).leadsFound := rfl

/-- Counter fields of the scrape progress record come straight from the
fold over the log. -/
lemma parseProgress_leadsNew_eq (output : List String) :
    (parseProgress output).leadsNew =
      (output.foldl scrapeStep ⟨0, 0, 0, 0, ("")⟩).leadsNew := rfl

/-- On a line with a per-page `N found, M new` report and no `Found: |
New:` summary, one loop iteration adds exactly `N` and `M` to the
counters. -/
lemma scrapeStep_counters_found (st : ScrapeState) (line : String) (n m : Nat)
    (hf : foundMatch line = some (n, m)) (h : scrapeMatch line = none) :
    (scrapeStep st line).leadsFound = st.leadsFound + n ∧
    (scrapeStep st line).leadsNew = st.leadsNew + m := by
  cases he : enrichMatch line <;> cases hp : progressMatch line <;>
    cases ha : autoEnrichMatch line <;> cases ht : totalMatch line <;>
      simp [scrapeStep, h, hf, he, hp, ha, ht]

/-- On a line with no `Found: | New:` summary, one loop iteration never
decreases the lead counters. -/
lemma scrapeStep_counters_le (st : ScrapeState) (line : String)
    (h : scrapeMatch line = none) :
    st.leadsFound ≤ (scrapeStep st line).leadsFound ∧
    st.leadsNew ≤ (scrapeStep st line).leadsNew := by
  cases hf : foundMatch line <;> cases he : enrichMatch line <;>
    cases hp : progressMatch line <;> cases ha : autoEnrichMatch line <;>
      cases ht : totalMatch line <;>
        simp [scrapeStep, h, hf, he, hp, ha, ht]

/-- Folding over lines free of `Found: | New:` summaries never decreases
the lead counters. -/
lemma foldl_counters_mono (l : List String) (st : ScrapeState)
    (h : ∀ line ∈ l, scrapeMatch line = none) :
    st.leadsFound ≤ (l.foldl scrapeStep st).leadsFound ∧
    st.leadsNew ≤ (l.foldl scrapeStep st).leadsNew := by
  induction l generalizing st with
  | nil => simp
  | cons a l ih =>
    have ha := scrapeStep_counters_le st a (h a (List.mem_cons_self a l))
    have hrec := ih (scrapeStep st a) (fun line hl => h line (List.mem_cons_of_mem a hl))
    simp only [List.foldl_cons]
    exact ⟨le_trans ha.1 hrec.1, le_trans ha.2 hrec.2⟩

/-- C5 counterexample: the counters are not always monotone under
appended output — a `Found: 3 | New: 1` summary line overwrites the
accumulated `leadsFound = 25`, `leadsNew = 5` with 3 and 1. -/
theorem C5_counterexample :
    (parseProgress [("  Page 1: 25 found, 5 new")]).leadsFound = 25 ∧
    (parseProgress [("  Page 1: 25 found, 5 new")]).leadsNew = 5 ∧
    (parseProgress ([("  Page 1: 25 found, 5 new")] ++ [("Found: 3 | New: 1")])).leadsFound = 3 ∧
    (parseProgress ([("  Page 1: 25 found, 5 new")] ++ [("Found: 3 | New: 1")])).leadsNew = 1 := by
  refine ⟨?_, ?_, ?_, ?_⟩ <;> decide

/-- C5 amended: each per-page `N found, M new` line adds `N` to
`leadsFound` and `M` to `leadsNew`, and appending output lines that
contain no `Found: N | New: M` summary never decreases either counter; a
summary line instead overwrites both counters with its own values. -/
theorem C5_amended :
    (∀ (l : List String) (line : String) (n m : Nat),
      foundMatch line = some (n, m) → scrapeMatch line = none →
      (parseProgress (l ++ [line])).leadsFound = (parseProgress l).leadsFound + n ∧
      (parseProgress (l ++ [line])).leadsNew = (parseProgress l).leadsNew + m) ∧
    (∀ l l₂ : List String, (∀ line ∈ l₂, scrapeMatch line = none) →
      (parseProgress l).leadsFound ≤ (parseProgress (l ++ l₂)).leadsFound ∧
      (parseProgress l).leadsNew ≤ (parseProgress (l ++ l₂)).leadsNew) ∧
    (∀ (l : List String) (line : String) (f n : Nat),
      scrapeMatch line = some (f, n) →
      (parseProgress (l ++ [line])).leadsFound = f ∧
      (parseProgress (l ++ [line])).leadsNew = n) := by
  refine ⟨?_, ?_, ?_⟩
  · intro l line n m hf hs
    have hstep := scrapeStep_counters_found (l.foldl scrapeStep ⟨0, 0, 0, 0, ("")⟩) line n m hf hs
    constructor
    · simp only [parseProgress_leadsFound_eq, List.foldl_append, List.foldl_cons, List.foldl_nil]
      exact hstep.1
    · simp only [parseProgress_leadsNew_eq, List.foldl_append, List.foldl_cons, List.foldl_nil]
      exact hstep.2
  · intro l l₂ h
    have hmono := foldl_counters_mono l₂ (l.foldl scrapeStep ⟨0, 0, 0, 0, ("")⟩) h
    constructor
    · simp only [parseProgress_leadsFound_eq, List.foldl_append]
      exact hmono.1
    · simp only [parseProgress_leadsNew_eq, List.foldl_append]
      exact hmono.2
  · intro l line f n hs
    constructor
    · simp only [parseProgress_leadsFound_eq, List.foldl_append, List.foldl_cons, List.foldl_nil]
      simp [scrapeStep, hs]
    · simp only [parseProgress_leadsNew_eq, List.foldl_append, List.foldl_cons, List.foldl_nil]
      simp [scrapeStep, hs]

/-- Witness for C5 amended at concrete logs. -/
theorem C5_amended_witness :
    (parseProgress ([] ++ [("7 found, 2 new")])).leadsFound =
      (parseProgress []).leadsFound + 7 ∧
    (parseProgress [("1 found, 1 new")]).leadsFound ≤
      (parseProgress ([("1 found, 1 new")] ++ [("working")])).leadsFound ∧
    (parseProgress ([] ++ [("Found: 3 | New: 1")])).leadsFound = 3 :=
  ⟨(C5_amended.1 [] ("7 found, 2 new") 7 2 (by decide) (by decide)).1,
   (C5_amended.2.1 [("1 found, 1 new")] [("working")] (by decide)).1,
   (C5_amended.2.2 [] ("Found: 3 | New: 1") 3 1 (by decide)).1⟩

/-- A fold that ends in status `completed` either saw a `close` event
with exit code 0 or started there. -/
lemma foldl_status_completed (evs : List JobEvent) (j : JobRec)
    (h : (evs.foldl applyEvent j).status = .completed) :
    (∃ e ∈ evs, isSuccessClose e = true) ∨ j.status = .completed := by
  induction evs generalizing j with
  | nil => exact Or.inr (by simpa using h)
  | cons a evs ih =>
    simp only [List.foldl_cons] at h
    rcases ih (applyEvent j a) h with ⟨e, he, hs⟩ | hj
    · exact Or.inl ⟨e, List.mem_cons_of_mem a he, hs⟩
    · cases a with
      | dataEv s => exact Or.inr (by simpa [applyEvent] using hj)
      | closeEv c =>
        by_cases hc : c = some 0
        · exact Or.inl ⟨.closeEv c, List.mem_cons_self _ _, by simp [isSuccessClose, hc]⟩
        · simp [applyEvent, hc] at hj
      | errorEv m => simp [applyEvent] at hj

/-- A fold that left status `running` either saw a `close` or `error`
event or started away from `running`. -/
lemma foldl_status_left (evs : List JobEvent) (j : JobRec)
    (h : (evs.foldl applyEvent j).status ≠ .running) :
    (∃ e ∈ evs, (isCloseEv e || isErrorEv e) = true) ∨ j.status ≠ .running := by
  induction evs generalizing j with
  | nil => exact Or.inr (by simpa using h)
  | cons a evs ih =>
    simp only [List.foldl_cons] at h
    rcases ih (applyEvent j a) h with ⟨e, he, hs⟩ | hj
    · exact Or.inl ⟨e, List.mem_cons_of_mem a he, hs⟩
    · cases a with
      | dataEv s => exact Or.inr (by simpa [applyEvent] using hj)
      | closeEv c => exact Or.inl ⟨.closeEv c, List.mem_cons_self _ _, by simp [isCloseEv]⟩
      | errorEv m => exact Or.inl ⟨.errorEv m, List.mem_cons_self _ _, by simp [isErrorEv]⟩

/-- One further event cannot move a status that already left `running`,
under the Node event guarantees of `validTrace`. -/
lemma status_step (evs₁ : List JobEvent) (a : JobEvent) (rest : List JobEvent)
    (hv : validTrace (evs₁ ++ a :: rest))
    (h : (runJob evs₁).status ≠ .running) :
    (runJob (evs₁ ++ [a])).status = (runJob evs₁).status := by
  have hfold : runJob (evs₁ ++ [a]) = applyEvent (runJob evs₁) a := by
    simp [runJob, List.foldl_append]
  rw [hfold]
  cases a with
  | dataEv s => simp [applyEvent]
  | errorEv m =>
    simp only [applyEvent]
    cases hst : (runJob evs₁).status with
    | running => exact absurd hst h
    | failed => rfl
    | completed =>
      exfalso
      rcases foldl_status_completed evs₁ initJob hst with ⟨e, he, hs⟩ | hinit
      · have hany : (evs₁ ++ JobEvent.errorEv m :: rest).any isErrorEv = true :=
          List.any_eq_true.2 ⟨.errorEv m, by simp, by simp [isErrorEv]⟩
        have hall := hv.2 hany
        have hne := List.all_eq_true.1 hall e (List.mem_append_left _ he)
        simp [hs] at hne
      · simp [initJob] at hinit
  | closeEv c =>
    simp only [applyEvent]
    rcases foldl_status_left evs₁ initJob h with ⟨e, he, hce⟩ | hinit
    · rw [Bool.or_eq_true] at hce
      rcases hce with hcl | herr
      · exfalso
        have h1 : 0 < evs₁.countP isCloseEv := List.countP_pos_iff.2 ⟨e, he, hcl⟩
        have h2 := hv.1
        rw [List.countP_append, List.countP_cons] at h2
        simp [isCloseEv] at h2
        omega
      · have hany : (evs₁ ++ JobEvent.closeEv c :: rest).any isErrorEv = true :=
          List.any_eq_true.2 ⟨e, List.mem_append_left _ he, herr⟩
        have hall := hv.2 hany
        have hc : ¬(c = some 0) := by
          have hcc := List.all_eq_true.1 hall (.closeEv c) (by simp)
          simpa [isSuccessClose] using hcc
        rw [if_neg hc]
        cases hst : (runJob evs₁).status with
        | running => exact absurd hst h
        | failed => rfl
        | completed =>
          exfalso
          rcases foldl_status_completed evs₁ initJob hst with ⟨e2, he2, hs2⟩ | hinit2
          · have hne := List.all_eq_true.1 hall e2 (List.mem_append_left _ he2)
            simp [hs2] at hne
          · simp [initJob] at hinit2
    · simp [initJob] at hinit

/-- A status that left `running` is stable under any further valid event
suffix. -/
lemma status_stable (evs₂ : List JobEvent) : ∀ evs₁ : List JobEvent,
    validTrace (evs₁ ++ evs₂) → (runJob evs₁).status ≠ .running →
    (runJob (evs₁ ++ evs₂)).status = (runJob evs₁).status := by
  induction evs₂ with
  | nil =>
    intro evs₁ _ _
    simp
  | cons a rest ih =>
    intro evs₁ hv h
    have hstep := status_step evs₁ a rest hv h
    have hassoc : evs₁ ++ a :: rest = (evs₁ ++ [a]) ++ rest := by simp
    rw [hassoc] at hv ⊢
    have h2 : (runJob (evs₁ ++ [a])).status ≠ .running := by
      rw [hstep]
      exact h
    rw [ih (evs₁ ++ [a]) hv h2, hstep]

/-- C3: a job starts as `running`; a `close` with exit code 0 makes it
`completed`, a `close` with any other code or an `error` (failed spawn)
makes it `failed`; and under the Node event guarantees (`close` at most
once, no exit code 0 after a spawn `error`) a status that left `running`
never changes again, so the status changes at most once. -/
theorem C3_status_lifecycle :
    (runJob []).status = .running ∧
    (∀ j : JobRec, j.status = .running →
      (applyEvent j (.closeEv (some 0))).status = .completed ∧
      (∀ c : Option Int, c ≠ some 0 → (applyEvent j (.closeEv c)).status = .failed) ∧
      (∀ m : String, (applyEvent j (.errorEv m)).status = .failed)) ∧
    (∀ evs₁ evs₂ : List JobEvent, validTrace (evs₁ ++ evs₂) →
      (runJob evs₁).status ≠ .running →
      (runJob (evs₁ ++ evs₂)).status = (runJob evs₁).status) := by
  refine ⟨rfl, ?_, fun evs₁ evs₂ hv h => status_stable evs₂ evs₁ hv h⟩
  intro j hj
  exact ⟨by simp [applyEvent], fun c hc => by simp [applyEvent, hc], fun m => by simp [applyEvent]⟩

/-- Witness for C3: a failed job stays failed across a later data event,
and a clean exit completes a running job. -/
theorem C3_status_lifecycle_witness :
    (runJob ([JobEvent.closeEv (some 1)] ++ [JobEvent.dataEv ("x")])).status =
      (runJob [JobEvent.closeEv (some 1)]).status ∧
    (applyEvent initJob (.closeEv (some 0))).status = .completed :=
  ⟨C3_status_lifecycle.2.2 [JobEvent.closeEv (some 1)] [JobEvent.dataEv ("x")]
      (by unfold validTrace; exact ⟨by decide, fun h => by decide⟩) (by decide),
   (C3_status_lifecycle.2.1 initJob (by decide)).1⟩

/-- C4 counterexample: the enrich-leads handler does not return
immediately with a job handle — its local-mode response is a function of
the spawned process's terminal outcome, reporting `completed` or
`failed` (never `running`) together with the process's full output. -/
theorem C4_counterexample :
    (enrichLeadsRun [JsElem.num 1] (.closed (some 0) [("done")])).statusStr = ("completed") ∧
    (enrichLeadsRun [JsElem.num 1] (.closed (some 1) [])).statusStr = ("failed") ∧
    (enrichLeadsRun [JsElem.num 1] (.closed (some 0) [("done")])).statusStr ≠ ("running") := by
  refine ⟨by decide, by decide, by decide⟩

/-- C4 amended: `runScrape`, `runEnrich` and `runReEnrich` respond
immediately with a `running` job handle computed from the request alone,
to be polled afterwards; `enrichLeads` instead awaits the spawned
process and responds with the terminal status (`completed` on exit code
0, otherwise `failed`) and the collected output. -/
theorem C4_amended :
    (∀ (m : JobMap) (newId : String) (body : ScrapeParams) (now : ℤ),
      (localPost m newId body now).1 = ⟨newId, ("running")⟩) ∧
    (∀ (limit : Nat) (now : ℤ),
      enrichPost none limit now =
        (.started ("running") limit, some ⟨.running, [], now, limit⟩, true)) ∧
    (∀ (days limit : Nat) (now : ℤ),
      reEnrichPost none days limit now =
        (.started ("running") days limit, some ⟨.running, [], now⟩, true)) ∧
    (∀ (ids : List JsElem) (code : Option Int) (out : List String),
      (enrichLeadsRun ids (.closed code out)).statusStr =
        if code = some 0 then ("completed") else ("failed")) ∧
    (∀ (ids : List JsElem) (msg : String),
      (enrichLeadsRun ids (.errored msg)).statusStr = ("failed")) := by
  refine ⟨fun m newId body now => rfl, fun limit now => by simp [enrichPost],
    fun days limit now => by simp [reEnrichPost], fun ids code out => rfl,
    fun ids msg => rfl⟩

/-- C6: `getJob` returns the stored status, the full output log and
progress parsed from that same log for a registered job id, and a 404
`Job not found` error for an unknown id, in both cases leaving the job
map unchanged. -/
theorem C6_getJob (id : String) (m : JobMap) :
    (∀ job : ScrapeJob, m.lookup id = some job →
      scrapeGet (some id) m =
        (.detail ⟨id, job.status, job.output, job.params, job.startedAt,
          parseProgress job.output⟩, m)) ∧
    (m.lookup id = none →
      scrapeGet (some id) m = (.notFound ("Job not found"), m) ∧
      getHttpCode (scrapeGet (some id) m).1 = 404) := by
  constructor
  · intro job h
    simp [scrapeGet, localGetOpt, h]
  · intro h
    simp [scrapeGet, localGetOpt, h, getHttpCode]

/-- Witness for C6 at a concrete one-job map and an unknown id. -/
theorem C6_getJob_witness :
    scrapeGet (some ("j1"))
        [(("j1"), (⟨JStatus.completed, [("ok")], 5, ⟨("g"), ("c"), ("l"), 2⟩⟩ : ScrapeJob))] =
      (.detail ⟨("j1"), JStatus.completed, [("ok")], ⟨("g"), ("c"), ("l"), 2⟩, 5,
        parseProgress [("ok")]⟩,
       [(("j1"), ⟨JStatus.completed, [("ok")], 5, ⟨("g"), ("c"), ("l"), 2⟩⟩)]) ∧
    scrapeGet (some ("nope")) [] = (.notFound ("Job not found"), []) :=
  ⟨(C6_getJob ("j1") _).1 ⟨JStatus.completed, [("ok")], 5, ⟨("g"), ("c"), ("l"), 2⟩⟩ (by decide),
   ((C6_getJob ("nope") []).2 (by decide)).1⟩

/-- The deletion test of `cleanOldJobs`, unfolded to a proposition. -/
lemma isStale_eq_false (now : ℤ) (j : ScrapeJob) :
    isStale now j = false ↔
      ¬(j.status ≠ JStatus.running ∧ j.startedAt < now - 10 * 60 * 1000) := by
  simp [isStale, Bool.and_eq_false_iff, bne_eq_false_iff_eq, decide_eq_false_iff_not]

/-- C7: the job store prunes an entry exactly when its status is terminal
and it started before the 10-minute cutoff; a `running` job is never
pruned regardless of age; and starting a new job via `localPost` first
prunes and then registers the fresh `running` job. -/
theorem C7_retention (now : ℤ) (m : JobMap) (id : String) (job : ScrapeJob) :
    ((id, job) ∈ cleanOldJobs now m ↔
      (id, job) ∈ m ∧ ¬(job.status ≠ JStatus.running ∧ job.startedAt < now - 10 * 60 * 1000)) ∧
    (job.status = JStatus.running → (id, job) ∈ m → (id, job) ∈ cleanOldJobs now m) ∧
    (∀ (newId : String) (body : ScrapeParams),
      (localPost m newId body now).2 =
        cleanOldJobs now m ++ [(newId, ⟨.running, [], now, body⟩)]) := by
  have hiff : (id, job) ∈ cleanOldJobs now m ↔
      (id, job) ∈ m ∧ ¬(job.status ≠ JStatus.running ∧ job.startedAt < now - 10 * 60 * 1000) := by
    unfold cleanOldJobs
    rw [List.mem_filter, Bool.not_eq_true', isStale_eq_false]
  refine ⟨hiff, fun hr hm => hiff.2 ⟨hm, ?_⟩, fun newId body => rfl⟩
  rintro ⟨h1, _⟩
  exact h1 hr

/-- Witness for C7: an old running job survives pruning, an old completed
job does not. -/
theorem C7_retention_witness :
    ((("a"), (⟨JStatus.running, [], 0, ⟨("g"), ("c"), ("l"), 1⟩⟩ : ScrapeJob)) ∈
      cleanOldJobs 100000000 [(("a"), ⟨JStatus.running, [], 0, ⟨("g"), ("c"), ("l"), 1⟩⟩)]) ∧
    ¬((("b"), (⟨JStatus.completed, [], 0, ⟨("g"), ("c"), ("l"), 1⟩⟩ : ScrapeJob)) ∈
      cleanOldJobs 100000000 [(("b"), ⟨JStatus.completed, [], 0, ⟨("g"), ("c"), ("l"), 1⟩⟩)]) :=
  ⟨(C7_retention 100000000 _ ("a") _).2.1 (by decide) (by decide),
   fun h => ((C7_retention 100000000 _ ("b") _).1.1 h).2 ⟨by decide, by decide⟩⟩

/-- C8: when an enrichment (or re-enrichment) job is `running`, a new
start request answers 409 with the already-running error, the stored job
slot is returned unchanged, and no process is spawned. -/
theorem C8_conflict (j : EnrichJob) (j2 : ReEnrichJob) (days limit : Nat) (now : ℤ)
    (h : j.status = JStatus.running) (h2 : j2.status = JStatus.running) :
    enrichPost (some j) limit now =
      (.conflict ("Enrichment already running") ("running"), some j, false) ∧
    enrichHttpCode (enrichPost (some j) limit now).1 = 409 ∧
    reEnrichPost (some j2) days limit now =
      (.conflict ("Re-enrichment already running") ("running"), some j2, false) ∧
    reEnrichHttpCode (reEnrichPost (some j2) days limit now).1 = 409 := by
  have e1 : enrichPost (some j) limit now =
      (.conflict ("Enrichment already running") ("running"), some j, false) := by
    simp [enrichPost, h]
  have e2 : reEnrichPost (some j2) days limit now =
      (.conflict ("Re-enrichment already running") ("running"), some j2, false) := by
    simp [reEnrichPost, h2]
  exact ⟨e1, by rw [e1]; rfl, e2, by rw [e2]; rfl⟩

/-- Witness for C8 at concrete running job slots. -/
theorem C8_conflict_witness :
    enrichPost (some ⟨.running, [], 0, 5⟩) 50 0 =
      (.conflict ("Enrichment already running") ("running"), some ⟨.running, [], 0, 5⟩, false) ∧
    reEnrichPost (some ⟨.running, [], 0⟩) 30 50 0 =
      (.conflict ("Re-enrichment already running") ("running"), some ⟨.running, [], 0⟩, false) :=
  ⟨(C8_conflict ⟨.running, [], 0, 5⟩ ⟨.running, [], 0⟩ 30 50 0 rfl rfl).1,
   (C8_conflict ⟨.running, [], 0, 5⟩ ⟨.running, [], 0⟩ 30 50 0 rfl rfl).2.2.1⟩

/-- Doubling the quotes of a nonempty cell yields a nonempty cell. -/
lemma doubleQuotes_ne_nil (a : Char) (l : List Char) : doubleQuotes (a :: l) ≠ [] := by
  by_cases ha : a = '"' <;> simp [doubleQuotes, ha]

/-- Collapsing doubled quotes inverts doubling them. -/
lemma undouble_doubleQuotes (cs : List Char) : undouble (doubleQuotes cs) = cs := by
  induction cs with
  | nil => rfl
  | cons c cs ih =>
    by_cases hc : c = '"'
    · subst hc
      have hdq : doubleQuotes ('"' :: cs) = '"' :: '"' :: doubleQuotes cs := by
        simp [doubleQuotes]
      rw [hdq]
      simp [undouble, ih]
    · have hdq : doubleQuotes (c :: cs) = c :: doubleQuotes cs := by
        simp [doubleQuotes, hc]
      rw [hdq]
      cases cs with
      | nil => rfl
      | cons e cs2 =>
        cases hd : doubleQuotes (e :: cs2) with
        | nil => exact absurd hd (doubleQuotes_ne_nil e cs2)
        | cons d rest =>
          rw [hd] at ih
          have hcond : ¬(c = '"' ∧ d = '"') := fun h => hc h.1
          simp only [undouble, if_neg hcond]
          rw [ih]

/-- Unescaping a quoted cell strips the outer quotes and collapses the
doubled inner quotes. -/
lemma csvUnescape_quoted (cs : List Char) :
    csvUnescape ('"' :: (cs ++ ['"'])) = undouble cs := by
  unfold csvUnescape
  rw [if_pos]
  · rw [show ('"' :: (cs ++ ['"'])).drop 1 = cs ++ ['"'] from rfl, List.dropLast_concat]
  · refine ⟨by simp, rfl, ?_⟩
    rw [show ('"' :: (cs ++ ['"'])) = ('"' :: cs) ++ ['"'] from rfl]
    exact List.getLast?_concat _

/-- Unescaping leaves a quote-free cell unchanged. -/
lemma csvUnescape_plain (cs : List Char) (h : needsQuoting cs = false) :
    csvUnescape cs = cs := by
  unfold csvUnescape
  rw [if_neg]
  rintro ⟨hlen, hhead, hlast⟩
  simp only [needsQuoting, Bool.or_eq_false_iff] at h
  cases cs with
  | nil => simp at hlen
  | cons c cs2 =>
    have hc : c = '"' := by simpa using hhead
    have : List.contains (c :: cs2) '"' = true := by
      simp [List.contains_cons, hc]
    rw [this] at h
    simp at h

/-- C9: `escapeCsv` is an injective CSV-cell encoding — a cell without a
comma, double quote or newline is returned unchanged, any other cell is
quote-wrapped with inner quotes doubled, standard CSV unescaping recovers
the original cell exactly, and a null or undefined value maps to the
empty cell. -/
theorem C9_escapeCsv :
    (∀ cs : List Char, csvUnescape (escapeCsv (some cs)) = cs) ∧
    (∀ cs₁ cs₂ : List Char, escapeCsv (some cs₁) = escapeCsv (some cs₂) → cs₁ = cs₂) ∧
    escapeCsv none = [] ∧
    (∀ cs, needsQuoting cs = false → escapeCsv (some cs) = cs) ∧
    (∀ cs, needsQuoting cs = true →
      escapeCsv (some cs) = '"' :: (doubleQuotes cs ++ ['"'])) := by
  have hrt : ∀ cs : List Char, csvUnescape (escapeCsv (some cs)) = cs := by
    intro cs
    by_cases h : needsQuoting cs
    · rw [show escapeCsv (some cs) = '"' :: (doubleQuotes cs ++ ['"']) from by
        simp [escapeCsv, h]]
      rw [csvUnescape_quoted, undouble_doubleQuotes]
    · rw [show escapeCsv (some cs) = cs from by simp [escapeCsv, h]]
      exact csvUnescape_plain cs (by simpa using h)
  refine ⟨hrt, fun cs₁ cs₂ h => ?_, rfl, fun cs h => by simp [escapeCsv, h],
    fun cs h => by simp [escapeCsv, h]⟩
  have h1 := hrt cs₁
  rw [h, hrt cs₂] at h1
  exact h1.symm

/-- Witness for C9 at concrete cells. -/
theorem C9_escapeCsv_witness :
    (['a'] : List Char) = ['a'] ∧
    escapeCsv (some ['a', 'b']) = ['a', 'b'] ∧
    escapeCsv (some ['a', '"']) = '"' :: (doubleQuotes ['a', '"'] ++ ['"']) ∧
    csvUnescape (escapeCsv (some [',', '"', 'x'])) = [',', '"', 'x'] :=
  ⟨C9_escapeCsv.2.1 ['a'] ['a'] rfl,
   C9_escapeCsv.2.2.2.1 ['a', 'b'] (by decide),
   C9_escapeCsv.2.2.2.2 ['a', '"'] (by decide),
   C9_escapeCsv.1 [',', '"', 'x']⟩

/-- C10: both id-taking handlers answer 400 without acting when the ids
field is a non-array, an empty array, or an array without a single valid
id, and otherwise act on exactly the positive-number subset of the
submitted ids, echoing that subset back. -/
theorem C10_id_validation :
    (∀ t : Bool, deleteLeads (.nonArray t) = .badRequest ("ids array is required") ∧
      enrichLeadsValidate (.nonArray t) = .badRequest ("leadIds array is required")) ∧
    (deleteLeads (.arr []) = .badRequest ("ids array is required") ∧
      enrichLeadsValidate (.arr []) = .badRequest ("leadIds array is required")) ∧
    (∀ l : List JsElem, l.filter isValidId = [] → l ≠ [] →
      deleteLeads (.arr l) = .badRequest ("No valid IDs provided") ∧
      enrichLeadsValidate (.arr l) = .badRequest ("No valid lead IDs provided")) ∧
    (∀ l : List JsElem, l.filter isValidId ≠ [] →
      deleteLeads (.arr l) = .deleted (l.filter isValidId) ∧
      enrichLeadsValidate (.arr l) = .proceed (l.filter isValidId)) ∧
    (∀ (l : List JsElem) (x : JsElem),
      x ∈ l.filter isValidId ↔ x ∈ l ∧ isValidId x = true) := by
  refine ⟨fun t => ⟨rfl, rfl⟩, ⟨rfl, rfl⟩, ?_, ?_, fun l x => List.mem_filter⟩
  · intro l hf hne
    constructor <;> simp [deleteLeads, enrichLeadsValidate, List.isEmpty_iff, hne, hf]
  · intro l hne
    have hl : l ≠ [] := by
      intro h
      rw [h] at hne
      simp at hne
    constructor <;> simp [deleteLeads, enrichLeadsValidate, List.isEmpty_iff, hl, hne]

/-- Witness for C10: a mixed array is filtered to its positive-number
ids, and an array with no valid id is rejected. -/
theorem C10_id_validation_witness :
    deleteLeads (.arr [JsElem.num 2, JsElem.other, JsElem.num (-1)]) =
      .deleted ([JsElem.num 2, JsElem.other, JsElem.num (-1)].filter isValidId) ∧
    deleteLeads (.arr [JsElem.other]) = .badRequest ("No valid IDs provided") :=
  ⟨(C10_id_validation.2.2.2.1 [JsElem.num 2, JsElem.other, JsElem.num (-1)] (by decide)).1,
   (C10_id_validation.2.2.1 [JsElem.other] (by decide) (by decide)).1⟩

end LeadScraper
